import Mathlib

/-!
# Reconciliation core of the confidential-containers runtime operator

A shallow embedding of `controllers/confidentialcontainersruntime_controller.go` and
`controllers/common.go`.

* The custom resource status, the DaemonSet and the RuntimeClass are records.
* The reconciler `r` of the source (the in-memory copy of the custom resource that the
  pass mutates) is the record `Reconciler`; it also carries the resource store, a counter
  of the status writes issued so far and the log of the `Create` calls issued so far.
* Everything a pass observes from outside (the result of each client call that can fail,
  the node lists returned by `List`, the request read by the first `Get`) is a field of
  `Env`.  Theorems quantify over every `Env`.
* A function of the source returning `(ctrl.Result, error)` returns an `Outcome`.
* A Go `int` is an `Int`: every counter the code writes is the length of a list or a
  count of appended names, so no overflow arises.
-/

namespace Operator

/-! ## controllers/common.go -/

/-- An error value, identified by its message. -/
abbrev Error := String

/-- The Go type `DaemonOperation` (`type DaemonOperation string`). -/
abbrev DaemonOperation := String

/-- InstallOperation denotes the installation operation. -/
def InstallOperation : DaemonOperation := "install"

/-- UninstallOperation denotes the uninstallation operation. -/
def UninstallOperation : DaemonOperation := "uninstall"

/-- UpgradeOperation denotes the upgrade operation. -/
def UpgradeOperation : DaemonOperation := "upgrade"

/-- The Go function `contains` of common.go: linear search for `s` in `list`. -/
def contains : List String → String → Bool
  | [], _ => false
  | v :: list, s => if v = s then true else contains list s

/-! ## Data model -/

/-- Modelled from the spec: the type `InstallationStatus.InProgress` of package api/v1beta1
(its declaration is not among the sources); the list of nodes that reported a finished
installation and the cached size of that list, a Go `int`. -/
structure InProgressStatus where
  BinariesInstalledNodesList : List String := []
  InProgressNodesCount : Int := 0
deriving DecidableEq, Repr

/-- Modelled from the spec: the type `InstallationStatus.Completed` of package api/v1beta1
(its declaration is not among the sources); the finalized nodes and their count. -/
structure CompletedStatus where
  CompletedNodesList : List String := []
  CompletedNodesCount : Int := 0
deriving DecidableEq, Repr

/-- Modelled from the spec: the type of `Status.InstallationStatus` of package api/v1beta1
(its declaration is not among the sources). -/
structure InstallStatus where
  InProgress : InProgressStatus := {}
  Completed : CompletedStatus := {}
deriving DecidableEq, Repr

/-- Modelled from the spec: the type `ConfidentialContainersRuntimeStatus` of package
api/v1beta1 (its declaration is not among the sources), with the fields the controller
reads and writes.  The default value is the zero-valued status. -/
structure ConfidentialContainersRuntimeStatus where
  TotalNodesCount : Int := 0
  ConfidentialContainersRuntimeImage : String := ""
  InstallationStatus : InstallStatus := {}
  RuntimeClass : String := ""
deriving DecidableEq, Repr

/-- The type `metav1.LabelSelector`, reduced to `MatchLabels` (the entries of a Go map). -/
structure LabelSelector where
  MatchLabels : List (String × String) := []
deriving DecidableEq, Repr

/-- Modelled from the spec: the type of `Spec.Config` of package api/v1beta1 (its
declaration is not among the sources). -/
structure Config where
  SourceImage : String := ""
deriving DecidableEq, Repr

/-- Modelled from the spec: the type `ConfidentialContainersRuntimeSpec` of package
api/v1beta1 (its declaration is not among the sources).  `none` is the nil selector. -/
structure ConfidentialContainersRuntimeSpec where
  ConfidentialContainersNodeSelector : Option LabelSelector := none
  Config : Config := {}
deriving DecidableEq, Repr

/-- The labels of a node: the entries of a Go `map[string]string`, in the order in which
`range` visits them.  A map holds every key once. -/
structure LabelMap where
  entries : List (String × String)
  nodupKeys : (entries.map Prod.fst).Nodup

/-- A node of the cluster (`corev1.Node`): its name and its labels. -/
structure Node where
  Name : String
  Labels : LabelMap

/-- The type `ctrl.Result`; `RequeueAfter` is a `time.Duration`, in nanoseconds. -/
structure Result where
  Requeue : Bool := false
  RequeueAfter : Int := 0
deriving DecidableEq, Repr

/-- The constant `time.Second`. -/
def Second : Int := 1000000000

/-- A `corev1.VolumeMount`. -/
structure VolumeMount where
  Name : String
  MountPath : String
deriving DecidableEq, Repr

/-- A `corev1.Volume` with a host path source. -/
structure Volume where
  Name : String
  Path : String
  HostPathType : Option String := none
deriving DecidableEq, Repr

/-- A `corev1.EnvVar` whose value comes from a field reference. -/
structure EnvVar where
  Name : String
  FieldPath : String
deriving DecidableEq, Repr

/-- A `corev1.Container`, with the fields processDaemonset sets. -/
structure Container where
  Name : String
  Image : String
  ImagePullPolicy : String
  PreStop : List String
  Privileged : Bool
  RunAsUser : Int
  Command : List String
  Env : List EnvVar
  VolumeMounts : List VolumeMount
deriving DecidableEq, Repr

/-- An `appsv1.DaemonSet`, with the fields processDaemonset sets and the owner references
that SetControllerReference adds. -/
structure DaemonSet where
  APIVersion : String
  Kind : String
  Name : String
  Namespace : String
  OwnerReferences : List String := []
  Selector : List (String × String)
  UpdateStrategyType : String
  MaxUnavailable : Int
  TemplateLabels : List (String × String)
  ServiceAccountName : String
  NodeSelector : List (String × String)
  Containers : List Container
  Volumes : List Volume
deriving DecidableEq, Repr

/-- A `nodeapi.RuntimeClass`; `Scheduling` is `none` for the nil pointer, otherwise the
node selector. -/
structure RuntimeClass where
  APIVersion : String
  Kind : String
  Name : String
  Handler : String
  Scheduling : Option (List (String × String)) := none
  OwnerReferences : List String := []
deriving DecidableEq, Repr

/-- The two kinds of side-effect object the controller creates. -/
inductive ObjKind where
  | daemonSet
  | runtimeClass
deriving DecidableEq, Repr

/-- A `Client.Create` call as the log of a pass records it: the kind, the namespace (empty
for a cluster-scoped object) and the name of the object, and whether the store held an
object of that kind and name when the call was issued. -/
structure CreateCall where
  kind : ObjKind
  Namespace : String
  Name : String
  held : Bool
deriving DecidableEq, Repr

/-- The resource store, as far as the controller reads and writes it: the persisted status
of the custom resource, the DaemonSets and the RuntimeClasses. -/
structure Store where
  Status : ConfidentialContainersRuntimeStatus := {}
  DaemonSets : List DaemonSet := []
  RuntimeClasses : List RuntimeClass := []
deriving DecidableEq, Repr

/-- Lookup of a DaemonSet by namespaced name; `none` is NotFound. -/
def Store.findDaemonSet (s : Store) (name ns : String) : Option DaemonSet :=
  s.DaemonSets.find? (fun d => decide (d.Name = name ∧ d.Namespace = ns))

/-- Lookup of a RuntimeClass (cluster scoped) by name; `none` is NotFound. -/
def Store.findRuntimeClass (s : Store) (name : String) : Option RuntimeClass :=
  s.RuntimeClasses.find? (fun c => decide (c.Name = name))

/-- What the first `Client.Get` of a pass returns for the custom resource. -/
inductive GetRequest where
  | found (Spec : ConfidentialContainersRuntimeSpec) (DeletionTimestamp : Bool)
  | notFound
  | failed (e : Error)

/-- Everything a pass observes from outside.

* `request`: the result of the `Get` of the custom resource (its status is read from the
  store).
* `listForTotal`, `listForMonitor`: the result of `Client.List` with the given match
  labels, in processKataConfigInstallRequest and in monitorKataConfigInstallation.
* `statusUpdate k`: the error of the k-th `Status().Update` of the pass, `none` on success.
* `setControllerReference`: the error of SetControllerReference for the named object.
* `getDaemonSet`, `getRuntimeClass`: an error other than NotFound returned by the `Get` of
  the object, `none` when the read itself works (NotFound is then decided by the store).
* `create`: the error of `Client.Create` for the named object, `none` when the store
  accepts the call. -/
structure Env where
  owner : String := "ccruntime"
  request : GetRequest
  listForTotal : List (String × String) → Except Error (List Node)
  listForMonitor : List (String × String) → Except Error (List Node)
  statusUpdate : Nat → Option Error := fun _ => none
  setControllerReference : ObjKind → String → Option Error := fun _ _ => none
  getDaemonSet : Option Error := none
  getRuntimeClass : String → Option Error := fun _ => none
  create : ObjKind → String → Option Error := fun _ _ => none

/-- The reconciler during a pass: `Spec` and `Status` are the in-memory custom resource
`r.confidentialContainersRuntime`, `store` is the resource store behind `r.Client`,
`updates` counts the `Status().Update` calls issued so far and `creates` logs the
`Create` calls issued so far. -/
structure Reconciler where
  Spec : ConfidentialContainersRuntimeSpec := {}
  Status : ConfidentialContainersRuntimeStatus := {}
  store : Store := {}
  updates : Nat := 0
  creates : List CreateCall := []
deriving DecidableEq, Repr

/-- What a function returning `(ctrl.Result, error)` leaves: the reconciler, the result and
the error (`none` for nil). -/
structure Outcome where
  state : Reconciler
  result : Result := {}
  err : Option Error := none
deriving DecidableEq, Repr

/-- Control flow of a block of a Go function: fall through to the next statement or
return from the function. -/
inductive Flow where
  | next (r : Reconciler)
  | ret (o : Outcome)

/-! ## Client calls -/

/-- The call `r.Client.Status().Update(ctx, r.confidentialContainersRuntime)`: on success the
store holds the in-memory status. -/
def Reconciler.statusUpdate (env : Env) (r : Reconciler) : Reconciler × Option Error :=
  match env.statusUpdate r.updates with
  | some e => ({ r with updates := r.updates + 1 }, some e)
  | none => ({ r with store := { r.store with Status := r.Status }, updates := r.updates + 1 }, none)

/-- The call `r.Client.Create(ctx, ds)`: logged, then refused by the environment, refused
because the object exists, or stored. -/
def Reconciler.createDaemonSet (env : Env) (ds : DaemonSet) (r : Reconciler) :
    Reconciler × Option Error :=
  let call : CreateCall :=
    { kind := ObjKind.daemonSet, Namespace := ds.Namespace, Name := ds.Name,
      held := (r.store.findDaemonSet ds.Name ds.Namespace).isSome }
  let r := { r with creates := r.creates ++ [call] }
  match env.create ObjKind.daemonSet ds.Name with
  | some e => (r, some e)
  | none =>
    match r.store.findDaemonSet ds.Name ds.Namespace with
    | some _ => (r, some "already exists")
    | none => ({ r with store := { r.store with DaemonSets := r.store.DaemonSets ++ [ds] } }, none)

/-- The call `r.Client.Create(ctx, rc)`: logged, then refused by the environment, refused
because the object exists, or stored. -/
def Reconciler.createRuntimeClass (env : Env) (rc : RuntimeClass) (r : Reconciler) :
    Reconciler × Option Error :=
  let call : CreateCall :=
    { kind := ObjKind.runtimeClass, Namespace := "", Name := rc.Name,
      held := (r.store.findRuntimeClass rc.Name).isSome }
  let r := { r with creates := r.creates ++ [call] }
  match env.create ObjKind.runtimeClass rc.Name with
  | some e => (r, some e)
  | none =>
    match r.store.findRuntimeClass rc.Name with
    | some _ => (r, some "already exists")
    | none =>
      ({ r with store := { r.store with RuntimeClasses := r.store.RuntimeClasses ++ [rc] } }, none)

/-- The statement that replaces a nil `Spec.ConfidentialContainersNodeSelector` by the
selector of the worker nodes (lines 102-106 and 195-199). -/
def Reconciler.defaultNodeSelector (r : Reconciler) : Reconciler :=
  match r.Spec.ConfidentialContainersNodeSelector with
  | none =>
    let sel : LabelSelector := { MatchLabels := [("node-role.kubernetes.io/worker", "")] }
    { r with Spec := { r.Spec with ConfidentialContainersNodeSelector := some sel } }
  | some _ => r

/-- The expression `r.confidentialContainersRuntime.Spec.ConfidentialContainersNodeSelector.MatchLabels`. -/
def Reconciler.matchLabels (r : Reconciler) : List (String × String) :=
  match r.Spec.ConfidentialContainersNodeSelector with
  | some sel => sel.MatchLabels
  | none => []

/-! ## processDaemonset -/

/-- The Go method `processDaemonset`. -/
def processDaemonset (operation : DaemonOperation) (r : Reconciler) : DaemonSet :=
  let runPrivileged := true
  let runAsUser : Int := 0
  let hostPt := "DirectoryOrCreate"
  let dsName := "kata-operator-daemon-" ++ operation
  let labels := [("name", dsName)]
  let nodeSelector : List (String × String) :=
    (match r.Spec.ConfidentialContainersNodeSelector with
      | some sel => sel.MatchLabels
      | none => [("node-role.kubernetes.io/worker", "")])
  { APIVersion := "apps/v1"
    Kind := "DaemonSet"
    Name := dsName
    Namespace := "kata-operator"
    Selector := labels
    UpdateStrategyType := "RollingUpdate"
    MaxUnavailable := 1
    TemplateLabels := labels
    ServiceAccountName := "kata-operator"
    NodeSelector := nodeSelector
    Containers := [
      { Name := "kata-install-pod"
        Image := r.Status.ConfidentialContainersRuntimeImage
        ImagePullPolicy := "Always"
        PreStop := ["bash", "-c", "/opt/kata-artifacts/scripts/kata-deploy.sh cleanup"]
        Privileged := runPrivileged
        RunAsUser := runAsUser
        Command := ["bash", "-c", "/opt/kata-artifacts/scripts/kata-deploy.sh install"]
        Env := [{ Name := "NODE_NAME", FieldPath := "spec.nodeName" }]
        VolumeMounts := [
          { Name := "crio-conf", MountPath := "/etc/crio/" },
          { Name := "containerd-conf", MountPath := "/etc/containerd/" },
          { Name := "kata-artifacts", MountPath := "/opt/kata/" },
          { Name := "dbus", MountPath := "/var/run/dbus" },
          { Name := "systemd", MountPath := "/run/systemd" },
          { Name := "local-bin", MountPath := "/usr/local/bin/" }] }]
    Volumes := [
      { Name := "crio-conf", Path := "/etc/crio/" },
      { Name := "containerd-conf", Path := "/etc/containerd/" },
      { Name := "kata-artifacts", Path := "/opt/kata/", HostPathType := some hostPt },
      { Name := "dbus", Path := "/var/run/dbus" },
      { Name := "systemd", Path := "/run/systemd" },
      { Name := "local-bin", Path := "/usr/local/bin/" }] }

/-! ## setRuntimeClass -/

/-- The local slice `runtimeClassNames` of setRuntimeClass. -/
def runtimeClassNames : List String :=
  ["kata-qemu-virtiofs", "kata-qemu", "kata-clh", "kata-fc", "kata"]

/-- The RuntimeClass built by the function literal of setRuntimeClass (lines 236-254). -/
def newRuntimeClass (r : Reconciler) (runtimeClassName : String) : RuntimeClass :=
  { APIVersion := "node.k8s.io/v1beta1"
    Kind := "RuntimeClass"
    Name := runtimeClassName
    Handler := runtimeClassName
    Scheduling :=
      match r.Spec.ConfidentialContainersNodeSelector with
      | some sel => some sel.MatchLabels
      | none => none }

/-- The loop of setRuntimeClass over the runtime class names (lines 235-271).  A `Get`
that fails with an error other than NotFound is followed by the next name. -/
def setRuntimeClassLoop (env : Env) : List String → Reconciler → Flow
  | [], r => Flow.next r
  | runtimeClassName :: rest, r =>
    let rc := newRuntimeClass r runtimeClassName
    match env.setControllerReference ObjKind.runtimeClass rc.Name with
    | some e => Flow.ret { state := r, err := some e }
    | none =>
      let rc := { rc with OwnerReferences := [env.owner] }
      match env.getRuntimeClass rc.Name, r.store.findRuntimeClass rc.Name with
      | none, none =>
        match r.createRuntimeClass env rc with
        | (r, some e) => Flow.ret { state := r, err := some e }
        | (r, none) => setRuntimeClassLoop env rest r
      | _, _ => setRuntimeClassLoop env rest r

/-- The assignment of line 273: `Status.RuntimeClass` becomes the comma-joined names. -/
def recordRuntimeClass (s : ConfidentialContainersRuntimeStatus) :
    ConfidentialContainersRuntimeStatus :=
  { s with RuntimeClass := String.intercalate "," runtimeClassNames }

/-- The Go method `setRuntimeClass`. -/
def setRuntimeClass (env : Env) (r : Reconciler) : Outcome :=
  match setRuntimeClassLoop env runtimeClassNames r with
  | Flow.ret o => o
  | Flow.next r =>
    let r := { r with Status := recordRuntimeClass r.Status }
    match r.statusUpdate env with
    | (r, some e) => { state := r, err := some e }
    | (r, none) => { state := r }

/-! ## monitorKataConfigInstallation -/

/-- The two statements of lines 214-215: append the node name to the in-progress list and
increment the in-progress count. -/
def appendInstalled (name : String) (s : ConfidentialContainersRuntimeStatus) :
    ConfidentialContainersRuntimeStatus :=
  let inProgress : InProgressStatus :=
    { BinariesInstalledNodesList :=
        s.InstallationStatus.InProgress.BinariesInstalledNodesList ++ [name]
      InProgressNodesCount := s.InstallationStatus.InProgress.InProgressNodesCount + 1 }
  { s with InstallationStatus := { s.InstallationStatus with InProgress := inProgress } }

/-- The inner loop over the labels of a node (lines 212-222). -/
def labelLoop (env : Env) (name : String) : List (String × String) → Reconciler → Flow
  | [], r => Flow.next r
  | (k, v) :: rest, r =>
    if k = "confidentialcontainers.org/runtime" ∧ v = "true" then
      let r := { r with Status := appendInstalled name r.Status }
      match r.statusUpdate env with
      | (r, some e) => Flow.ret { state := r, err := some e }
      | (r, none) => labelLoop env name rest r
    else labelLoop env name rest r

/-- The first statement of the body of the loop over the nodes (lines 211-223). -/
def nodeBody (env : Env) (node : Node) (r : Reconciler) : Flow :=
  if !contains r.Status.InstallationStatus.InProgress.BinariesInstalledNodesList node.Name then
    labelLoop env node.Name node.Labels.entries r
  else Flow.next r

/-- The loop over the listed nodes (lines 210-229), with the return that follows it. -/
def nodeLoop (env : Env) : List Node → Reconciler → Outcome
  | [], r => { state := r }
  | node :: rest, r =>
    match nodeBody env node r with
    | Flow.ret o => o
    | Flow.next r =>
      if r.Status.InstallationStatus.InProgress.InProgressNodesCount = r.Status.TotalNodesCount then
        { state := r, result := { Requeue := true } }
      else nodeLoop env rest r

/-- The four assignments of lines 180-183: the in-progress list becomes the completed
list and the in-progress list is emptied. -/
def finalize (s : ConfidentialContainersRuntimeStatus) : ConfidentialContainersRuntimeStatus :=
  let completed : CompletedStatus :=
    { CompletedNodesList := s.InstallationStatus.InProgress.BinariesInstalledNodesList
      CompletedNodesCount := s.InstallationStatus.InProgress.BinariesInstalledNodesList.length }
  let inProgress : InProgressStatus := { BinariesInstalledNodesList := [], InProgressNodesCount := 0 }
  { s with InstallationStatus := { Completed := completed, InProgress := inProgress } }

/-- The Go method `monitorKataConfigInstallation`. -/
def monitorKataConfigInstallation (env : Env) (r : Reconciler) : Outcome :=
  if 0 < r.Status.TotalNodesCount ∧
      r.Status.InstallationStatus.InProgress.InProgressNodesCount = r.Status.TotalNodesCount then
    let rs := setRuntimeClass env r
    match rs.err with
    | some _ => rs
    | none =>
      let r := { rs.state with Status := finalize rs.state.Status }
      match r.statusUpdate env with
      | (r, some e) => { state := r, err := some e }
      | (r, none) => { state := r }
  else
    let r := r.defaultNodeSelector
    match env.listForMonitor r.matchLabels with
    | Except.error e => { state := r, err := some e }
    | Except.ok items => nodeLoop env items r

/-! ## processKataConfigInstallRequest and Reconcile -/

/-- The first block of processKataConfigInstallRequest (lines 98-137): when no node count
is pinned yet, count the nodes of the selector, check the preconditions and persist. -/
def pinTotalNodesCount (env : Env) (r : Reconciler) : Flow :=
  if r.Status.TotalNodesCount = 0 then
    let r := r.defaultNodeSelector
    match env.listForTotal r.matchLabels with
    | Except.error e => Flow.ret { state := r, err := some e }
    | Except.ok items =>
      let r := { r with Status := { r.Status with TotalNodesCount := items.length } }
      if r.Status.TotalNodesCount = 0 then
        Flow.ret { state := r, result := { Requeue := true, RequeueAfter := 15 * Second },
                   err := some "no suitable worker nodes found for runtime installation. Please make sure to label the nodes with labels specified in ConfidentialContainersNodeSelector" }
      else if r.Spec.Config.SourceImage = "" then
        Flow.ret { state := r, result := { Requeue := true, RequeueAfter := 15 * Second },
                   err := some "SourceImage must be specified to download the runtime binaries" }
      else
        let r :=
          if r.Status.ConfidentialContainersRuntimeImage = "" then
            let image := r.Spec.Config.SourceImage
            { r with Status := { r.Status with ConfidentialContainersRuntimeImage := image } }
          else r
        match r.statusUpdate env with
        | (r, some e) => Flow.ret { state := r, err := some e }
        | (r, none) => Flow.next r
  else Flow.next r

/-- The second block of processKataConfigInstallRequest (lines 139-169): get or create the
install DaemonSet and monitor, unless the installation is completed. -/
def installDaemonset (env : Env) (r : Reconciler) : Outcome :=
  if 0 < r.Status.TotalNodesCount ∧
      r.Status.InstallationStatus.Completed.CompletedNodesCount ≠ r.Status.TotalNodesCount then
    let ds := processDaemonset InstallOperation r
    match env.setControllerReference ObjKind.daemonSet ds.Name with
    | some e => { state := r, err := some e }
    | none =>
      let ds := { ds with OwnerReferences := [env.owner] }
      match env.getDaemonSet, r.store.findDaemonSet ds.Name ds.Namespace with
      | none, none =>
        match r.createDaemonSet env ds with
        | (r, some e) => { state := r, err := some e }
        | (r, none) => monitorKataConfigInstallation env r
      | some e, _ => { state := r, err := some e }
      | none, some _ => monitorKataConfigInstallation env r
  else { state := r }

/-- The Go method `processKataConfigInstallRequest`. -/
def processKataConfigInstallRequest (env : Env) (r : Reconciler) : Outcome :=
  match pinTotalNodesCount env r with
  | Flow.ret o => o
  | Flow.next r => installDaemonset env r

/-- The Go method `processKataConfigDeleteRequest`. -/
def processKataConfigDeleteRequest (r : Reconciler) : Outcome :=
  { state := r }

/-- The Go method `Reconcile`: one pass over the store `st`. -/
def Reconcile (env : Env) (st : Store) : Outcome :=
  match env.request with
  | GetRequest.notFound => { state := { store := st } }
  | GetRequest.failed e => { state := { store := st }, err := some e }
  | GetRequest.found spec deletionTimestamp =>
    let r : Reconciler := { Spec := spec, Status := st.Status, store := st }
    if deletionTimestamp then processKataConfigDeleteRequest r
    else processKataConfigInstallRequest env r

/-- The reconciler a block of code leaves, whether it falls through or returns. -/
def Flow.state : Flow → Reconciler
  | Flow.next r => r
  | Flow.ret o => o.state

/-- What the label loop does on the entries of a map: one append and one status write when
the success label is present, nothing otherwise. -/
def labelStep (env : Env) (name : String) (entries : List (String × String)) (r : Reconciler) :
    Flow :=
  if ("confidentialcontainers.org/runtime", "true") ∈ entries then
    match ({ r with Status := appendInstalled name r.Status } : Reconciler).statusUpdate env with
    | (r, some e) => Flow.ret { state := r, err := some e }
    | (r, none) => Flow.next r
  else Flow.next r

/-- A property of the reconciler that every state change of a pass preserves, each change
taken with what the code has checked at that point. -/
structure PassInvariant (env : Env) (P : Reconciler → Prop) : Prop where
  setSpec : ∀ (r : Reconciler) (spec : ConfidentialContainersRuntimeSpec), P r →
    P { r with Spec := spec }
  setTotal : ∀ (r : Reconciler) (n : Nat), P r → r.Status.TotalNodesCount = 0 →
    P { r with Status := { r.Status with TotalNodesCount := n } }
  setImage : ∀ (r : Reconciler) (image : String), P r →
    P { r with Status := { r.Status with ConfidentialContainersRuntimeImage := image } }
  setName : ∀ r : Reconciler, P r → P { r with Status := recordRuntimeClass r.Status }
  finalize : ∀ r : Reconciler, P r → 0 < r.Status.TotalNodesCount →
    r.Status.InstallationStatus.Completed.CompletedNodesCount ≠ r.Status.TotalNodesCount →
    r.Status.InstallationStatus.InProgress.InProgressNodesCount = r.Status.TotalNodesCount →
    P { r with Status := finalize r.Status }
  append : ∀ (r : Reconciler) (name : String), P r → 0 < r.Status.TotalNodesCount →
    r.Status.InstallationStatus.Completed.CompletedNodesCount ≠ r.Status.TotalNodesCount →
    r.Status.InstallationStatus.InProgress.InProgressNodesCount ≠ r.Status.TotalNodesCount →
    name ∉ r.Status.InstallationStatus.InProgress.BinariesInstalledNodesList →
    P { r with Status := appendInstalled name r.Status }
  update : ∀ r : Reconciler, P r → P (r.statusUpdate env).1
  createDaemonSet : ∀ (r : Reconciler) (ds : DaemonSet), P r →
    r.store.findDaemonSet ds.Name ds.Namespace = none → P (r.createDaemonSet env ds).1
  createRuntimeClass : ∀ (r : Reconciler) (rc : RuntimeClass), P r →
    r.store.findRuntimeClass rc.Name = none → P (r.createRuntimeClass env rc).1

/-- The invariant of the persisted status: the counts are the sizes of the lists, the
in-progress count does not exceed the total, and once nodes are completed the in-progress
list is empty and the completed count is the total. -/
def StatusInvariant (s : ConfidentialContainersRuntimeStatus) : Prop :=
  s.InstallationStatus.InProgress.InProgressNodesCount =
      s.InstallationStatus.InProgress.BinariesInstalledNodesList.length ∧
  s.InstallationStatus.Completed.CompletedNodesCount =
      s.InstallationStatus.Completed.CompletedNodesList.length ∧
  s.InstallationStatus.InProgress.InProgressNodesCount ≤ s.TotalNodesCount ∧
  (s.InstallationStatus.Completed.CompletedNodesList = [] ∨
    (s.InstallationStatus.InProgress.BinariesInstalledNodesList = [] ∧
      s.InstallationStatus.Completed.CompletedNodesCount = s.TotalNodesCount))

/-- The in-progress list is duplicate-free, extends `old` and has the cached count as its
length. -/
def FoldInvariant (old : List String) (s : ConfidentialContainersRuntimeStatus) : Prop :=
  s.InstallationStatus.InProgress.BinariesInstalledNodesList.Nodup ∧
  old <+: s.InstallationStatus.InProgress.BinariesInstalledNodesList ∧
  s.InstallationStatus.InProgress.InProgressNodesCount =
    s.InstallationStatus.InProgress.BinariesInstalledNodesList.length

/-- The number of DaemonSets of the store with the given namespaced name. -/
def Store.countDaemonSets (s : Store) (name ns : String) : Nat :=
  s.DaemonSets.countP (fun d => decide (d.Name = name ∧ d.Namespace = ns))

/-- The number of RuntimeClasses of the store with the given name. -/
def Store.countRuntimeClasses (s : Store) (name : String) : Nat :=
  s.RuntimeClasses.countP (fun c => decide (c.Name = name))

/-- Whether the store holds the object a create call names. -/
def Store.holds (s : Store) (c : CreateCall) : Bool :=
  match c.kind with
  | ObjKind.daemonSet => (s.findDaemonSet c.Name c.Namespace).isSome
  | ObjKind.runtimeClass => (s.findRuntimeClass c.Name).isSome

/-- The side-effect objects of a pass over the store `st`: every create was issued for an
object that the store did not hold, at the time of the call and when the pass started; the
objects of `st` are kept as they are, in front of the created ones; no name is held more
often than in `st`, or once. -/
def ObjectsInvariant (st : Store) (r : Reconciler) : Prop :=
  (∀ c ∈ r.creates, c.held = false ∧ st.holds c = false) ∧
  st.DaemonSets <+: r.store.DaemonSets ∧
  st.RuntimeClasses <+: r.store.RuntimeClasses ∧
  (∀ name ns, r.store.countDaemonSets name ns ≤ max (st.countDaemonSets name ns) 1) ∧
  (∀ name, r.store.countRuntimeClasses name ≤ max (st.countRuntimeClasses name) 1)

/-! ## Sequences of passes -/

/-- The status `s2` is persisted after some sequence of Reconcile passes that starts with
`s1` persisted; each pass runs in any environment and over any side-effect objects. -/
inductive ReachableFrom (s1 : ConfidentialContainersRuntimeStatus) :
    ConfidentialContainersRuntimeStatus → Prop where
  | refl : ReachableFrom s1 s1
  | pass {s : ConfidentialContainersRuntimeStatus} (env : Env) (dss : List DaemonSet)
      (rcs : List RuntimeClass) :
      ReachableFrom s1 s →
      ReachableFrom s1
        (Reconcile env { Status := s, DaemonSets := dss, RuntimeClasses := rcs }).state.store.Status

/-- The statuses reachable from the zero-valued status. -/
def Reachable (s : ConfidentialContainersRuntimeStatus) : Prop :=
  ReachableFrom {} s

/-! ## Example inputs -/

/-- The labels of a node on which the installer has reported success. -/
def installedLabels : LabelMap :=
  { entries := [("kubernetes.io/os", "linux"), ("confidentialcontainers.org/runtime", "true")]
    nodupKeys := by decide }

/-- The labels of a node on which the installer has not reported yet. -/
def pendingLabels : LabelMap :=
  { entries := [("kubernetes.io/os", "linux")]
    nodupKeys := by decide }

/-- Three target nodes, two of which carry the success label. -/
def twoOfThree : List Node :=
  [{ Name := "node1", Labels := installedLabels }, { Name := "node2", Labels := installedLabels },
   { Name := "node3", Labels := pendingLabels }]

/-- Three target nodes that all carry the success label. -/
def threeOfThree : List Node :=
  [{ Name := "node1", Labels := installedLabels }, { Name := "node2", Labels := installedLabels },
   { Name := "node3", Labels := installedLabels }]

/-- A request with a source image and no node selector. -/
def exampleSpec : ConfidentialContainersRuntimeSpec :=
  { Config := { SourceImage := "quay.io/kata-containers/kata-deploy:stable" } }

/-- An environment in which every call succeeds and `List` returns `nodes`. -/
def quietEnv (nodes : List Node) : Env :=
  { request := GetRequest.found exampleSpec false
    listForTotal := fun _ => Except.ok nodes
    listForMonitor := fun _ => Except.ok nodes }

/-- The status persisted by the first pass over the zero-valued status when two of the
three nodes are labelled. -/
def statusTwoOfThree : ConfidentialContainersRuntimeStatus :=
  (Reconcile (quietEnv twoOfThree) {}).state.store.Status

/-- The status persisted by two passes over the zero-valued status when the three nodes
are labelled. -/
def statusCompleted : ConfidentialContainersRuntimeStatus :=
  (Reconcile (quietEnv threeOfThree)
    { Status := (Reconcile (quietEnv threeOfThree) {}).state.store.Status }).state.store.Status

/-- A reconciler whose in-progress list already holds node1, with three target nodes. -/
def oneOfThree : Reconciler :=
  { Spec := exampleSpec
    Status :=
      { TotalNodesCount := 3
        InstallationStatus :=
          { InProgress := { BinariesInstalledNodesList := ["node1"], InProgressNodesCount := 1 } } } }

/-- An observed node list with a repeated node and a node that is already in the list. -/
def repeatedNodes : List Node :=
  [{ Name := "node2", Labels := installedLabels }, { Name := "node1", Labels := installedLabels },
   { Name := "node2", Labels := installedLabels }, { Name := "node3", Labels := pendingLabels }]

/-- A reconciler that enters monitoring with three target nodes and none reported. -/
def noneOfThree : Reconciler :=
  { Spec := exampleSpec, Status := { TotalNodesCount := 3 }, store := { Status := { TotalNodesCount := 3 } } }

/-- A store in which the single target node has reported and no RuntimeClass exists. -/
def storeAllReported : Store :=
  { Status :=
      { TotalNodesCount := 1
        ConfidentialContainersRuntimeImage := "quay.io/kata-containers/kata-deploy:stable"
        InstallationStatus :=
          { InProgress := { BinariesInstalledNodesList := ["node1"], InProgressNodesCount := 1 } } } }

/-- An environment in which every read of a RuntimeClass fails with an error other than
NotFound and every other call succeeds. -/
def failingReadEnv : Env :=
  { request := GetRequest.found exampleSpec false
    listForTotal := fun _ => Except.ok []
    listForMonitor := fun _ => Except.ok []
    getRuntimeClass := fun _ => some "etcdserver: request timed out" }

/-- An environment whose request has no source image, in which `List` returns `nodes`. -/
def noImageEnv (nodes : List Node) : Env :=
  { request := GetRequest.found {} false
    listForTotal := fun _ => Except.ok nodes
    listForMonitor := fun _ => Except.ok nodes }

/-! ## Lemmas on the client calls and on the loops -/

theorem contains_iff (list : List String) (s : String) : contains list s = true ↔ s ∈ list := by
  induction list with
  | nil => simp [contains]
  | cons v rest ih =>
    by_cases h : v = s
    · simp [contains, h]
    · have h2 : ¬ s = v := fun e => h e.symm
      simp [contains, h, h2, ih]

theorem statusUpdate_fst_Status (env : Env) (r : Reconciler) :
    (r.statusUpdate env).1.Status = r.Status := by
  unfold Reconciler.statusUpdate; split <;> rfl

theorem statusUpdate_fst_creates (env : Env) (r : Reconciler) :
    (r.statusUpdate env).1.creates = r.creates := by
  unfold Reconciler.statusUpdate; split <;> rfl

theorem statusUpdate_fst_DaemonSets (env : Env) (r : Reconciler) :
    (r.statusUpdate env).1.store.DaemonSets = r.store.DaemonSets := by
  unfold Reconciler.statusUpdate; split <;> rfl

theorem statusUpdate_fst_RuntimeClasses (env : Env) (r : Reconciler) :
    (r.statusUpdate env).1.store.RuntimeClasses = r.store.RuntimeClasses := by
  unfold Reconciler.statusUpdate; split <;> rfl

theorem statusUpdate_snd (env : Env) (r : Reconciler) :
    (r.statusUpdate env).2 = env.statusUpdate r.updates := by
  unfold Reconciler.statusUpdate; split <;> simp_all

theorem statusUpdate_store_Status (env : Env) (r : Reconciler) :
    (r.statusUpdate env).1.store.Status = r.store.Status ∨
      (r.statusUpdate env).1.store.Status = r.Status := by
  unfold Reconciler.statusUpdate; split
  · left; rfl
  · right; rfl

/-- No label entry is the success label. -/
theorem labelLoop_none (env : Env) (name : String) (entries : List (String × String))
    (r : Reconciler)
    (h : ∀ e ∈ entries, ¬ (e.1 = "confidentialcontainers.org/runtime" ∧ e.2 = "true")) :
    labelLoop env name entries r = Flow.next r := by
  induction entries with
  | nil => rfl
  | cons e rest ih =>
    obtain ⟨k, v⟩ := e
    have h1 := h (k, v) (List.mem_cons_self _ _)
    have h2 : ∀ e ∈ rest, ¬ (e.1 = "confidentialcontainers.org/runtime" ∧ e.2 = "true") :=
      fun e he => h e (List.mem_cons_of_mem _ he)
    simp only [labelLoop]
    rw [if_neg h1]
    exact ih h2

theorem labelLoop_eq (env : Env) (name : String) (entries : List (String × String))
    (hnd : (entries.map Prod.fst).Nodup) (r : Reconciler) :
    labelLoop env name entries r = labelStep env name entries r := by
  induction entries generalizing r with
  | nil => simp [labelLoop, labelStep]
  | cons e rest ih =>
    obtain ⟨k, v⟩ := e
    simp only [List.map_cons, List.nodup_cons] at hnd
    obtain ⟨hk, hrest⟩ := hnd
    by_cases hkv : k = "confidentialcontainers.org/runtime" ∧ v = "true"
    · obtain ⟨rfl, rfl⟩ := hkv
      have hno : ∀ e ∈ rest, ¬ (e.1 = "confidentialcontainers.org/runtime" ∧ e.2 = "true") := by
        intro e he hc
        exact hk (List.mem_map.mpr ⟨e, he, hc.1⟩)
      simp only [labelLoop, labelStep, List.mem_cons, true_or, and_self, if_true]
      generalize Reconciler.statusUpdate env _ = p
      obtain ⟨r2, _ | e⟩ := p
      · exact labelLoop_none env name rest r2 hno
      · rfl
    · have hne : ¬ (("confidentialcontainers.org/runtime", "true") = (k, v)) := by
        intro hc
        simp only [Prod.mk.injEq] at hc
        exact hkv ⟨hc.1.symm, hc.2.symm⟩
      simp only [labelLoop]
      rw [if_neg hkv, ih hrest]
      simp only [labelStep, List.mem_cons, hne, false_or]

theorem nodeLoop_cons (env : Env) (node : Node) (rest : List Node) (r : Reconciler) :
    nodeLoop env (node :: rest) r =
      match nodeBody env node r with
      | Flow.ret o => o
      | Flow.next r =>
        if r.Status.InstallationStatus.InProgress.InProgressNodesCount = r.Status.TotalNodesCount then
          { state := r, result := { Requeue := true } }
        else nodeLoop env rest r := by
  rfl

/-- The three ways the body of the node loop ends. -/
theorem nodeBody_cases (env : Env) (node : Node) (r : Reconciler) :
    nodeBody env node r = Flow.next r ∨
    (node.Name ∉ r.Status.InstallationStatus.InProgress.BinariesInstalledNodesList ∧
      ((({ r with Status := appendInstalled node.Name r.Status } : Reconciler).statusUpdate env).2 = none ∧
        nodeBody env node r =
          Flow.next (({ r with Status := appendInstalled node.Name r.Status } : Reconciler).statusUpdate env).1 ∨
       ∃ e, (({ r with Status := appendInstalled node.Name r.Status } : Reconciler).statusUpdate env).2 = some e ∧
        nodeBody env node r =
          Flow.ret { state := (({ r with Status := appendInstalled node.Name r.Status } : Reconciler).statusUpdate env).1,
                     err := some e })) := by
  unfold nodeBody
  by_cases hc : contains r.Status.InstallationStatus.InProgress.BinariesInstalledNodesList node.Name = true
  · left; simp [hc]
  · have hmem : node.Name ∉ r.Status.InstallationStatus.InProgress.BinariesInstalledNodesList :=
      fun h => hc ((contains_iff _ _).mpr h)
    simp only [Bool.not_eq_true] at hc
    simp only [hc, Bool.not_false, if_true]
    rw [labelLoop_eq env _ _ node.Labels.nodupKeys]
    unfold labelStep
    by_cases hl : ("confidentialcontainers.org/runtime", "true") ∈ node.Labels.entries
    · right
      refine ⟨hmem, ?_⟩
      rw [if_pos hl]
      generalize Reconciler.statusUpdate env _ = p
      obtain ⟨r2, _ | e⟩ := p
      · left; exact ⟨rfl, rfl⟩
      · right; exact ⟨e, rfl, rfl⟩
    · left; rw [if_neg hl]

theorem nodeLoop_induct (env : Env) (P : Reconciler → Prop) (c : Prop)
    (happ : ∀ (r : Reconciler) (name : String), P r →
      name ∉ r.Status.InstallationStatus.InProgress.BinariesInstalledNodesList →
      (c → r.Status.InstallationStatus.InProgress.InProgressNodesCount ≠ r.Status.TotalNodesCount) →
      P { r with Status := appendInstalled name r.Status })
    (hupd : ∀ r : Reconciler, P r → P (r.statusUpdate env).1)
    (nodes : List Node) (r : Reconciler) (h : P r)
    (hc : c → r.Status.InstallationStatus.InProgress.InProgressNodesCount ≠ r.Status.TotalNodesCount) :
    P (nodeLoop env nodes r).state := by
  induction nodes generalizing r with
  | nil => exact h
  | cons node rest ih =>
    rw [nodeLoop_cons]
    rcases nodeBody_cases env node r with hb | ⟨hmem, ⟨_, hb⟩ | ⟨e, _, hb⟩⟩
    · rw [hb]
      simp only
      split
      · exact h
      · next hne => exact ih r h (fun _ => hne)
    · rw [hb]
      simp only
      have hP := hupd _ (happ r node.Name h hmem hc)
      split
      · exact hP
      · next hne => exact ih _ hP (fun _ => hne)
    · rw [hb]
      exact hupd _ (happ r node.Name h hmem hc)

/-- The result of the node loop: requeue is set only on the return of line 225, where the
in-progress count equals the total; the delay is never set. -/
theorem nodeLoop_result (env : Env) (nodes : List Node) (r : Reconciler) :
    (nodeLoop env nodes r).result.RequeueAfter = 0 ∧
    ((nodeLoop env nodes r).result.Requeue = true →
      (nodeLoop env nodes r).err = none ∧
      (nodeLoop env nodes r).state.Status.InstallationStatus.InProgress.InProgressNodesCount =
        (nodeLoop env nodes r).state.Status.TotalNodesCount) ∧
    ((nodeLoop env nodes r).result.Requeue = false → (nodeLoop env nodes r).err = none →
      (nodeLoop env nodes r).state.Status.InstallationStatus.InProgress.InProgressNodesCount ≠
        (nodeLoop env nodes r).state.Status.TotalNodesCount ∨ nodes = []) ∧
    ((∀ k, env.statusUpdate k = none) → (nodeLoop env nodes r).err = none) := by
  induction nodes generalizing r with
  | nil => simp [nodeLoop]
  | cons node rest ih =>
    rw [nodeLoop_cons]
    rcases nodeBody_cases env node r with hb | ⟨hmem, ⟨_, hb⟩ | ⟨e, he, hb⟩⟩
    · rw [hb]
      simp only
      split
      · next heq => simp [heq]
      · next hne =>
        obtain ⟨h1, h2, h3, h4⟩ := ih r
        refine ⟨h1, h2, ?_, h4⟩
        intro hq he
        rcases h3 hq he with h | h
        · exact Or.inl h
        · subst h
          left
          simpa [nodeLoop] using hne
    · rw [hb]
      simp only
      split
      · next heq => simp [heq]
      · next hne =>
        obtain ⟨h1, h2, h3, h4⟩ := ih (Reconciler.statusUpdate env { r with Status := appendInstalled node.Name r.Status }).1
        refine ⟨h1, h2, ?_, h4⟩
        intro hq he
        rcases h3 hq he with h | h
        · exact Or.inl h
        · subst h
          left
          simpa [nodeLoop] using hne
    · rw [hb]
      refine ⟨rfl, by simp, by simp, ?_⟩
      intro hall
      rw [statusUpdate_snd, hall] at he
      simp at he

/-! ## Invariants of a pass -/

theorem createRuntimeClass_fst_Status (env : Env) (rc : RuntimeClass) (r : Reconciler) :
    (r.createRuntimeClass env rc).1.Status = r.Status ∧
    (r.createRuntimeClass env rc).1.Spec = r.Spec ∧
    (r.createRuntimeClass env rc).1.store.Status = r.store.Status ∧
    (r.createRuntimeClass env rc).1.updates = r.updates := by
  unfold Reconciler.createRuntimeClass
  simp only
  split
  · exact ⟨rfl, rfl, rfl, rfl⟩
  · split <;> exact ⟨rfl, rfl, rfl, rfl⟩

theorem createDaemonSet_fst_Status (env : Env) (ds : DaemonSet) (r : Reconciler) :
    (r.createDaemonSet env ds).1.Status = r.Status ∧
    (r.createDaemonSet env ds).1.Spec = r.Spec ∧
    (r.createDaemonSet env ds).1.store.Status = r.store.Status ∧
    (r.createDaemonSet env ds).1.updates = r.updates := by
  unfold Reconciler.createDaemonSet
  simp only
  split
  · exact ⟨rfl, rfl, rfl, rfl⟩
  · split <;> exact ⟨rfl, rfl, rfl, rfl⟩

/-- The loop of setRuntimeClass keeps the in-memory resource and preserves what each
create of an absent RuntimeClass preserves. -/
theorem setRuntimeClassLoop_induct (env : Env) (P : Reconciler → Prop)
    (hcreate : ∀ (r : Reconciler) (rc : RuntimeClass), P r →
      r.store.findRuntimeClass rc.Name = none → P (r.createRuntimeClass env rc).1)
    (names : List String) (r : Reconciler) (h : P r) :
    P (setRuntimeClassLoop env names r).state ∧
    (setRuntimeClassLoop env names r).state.Status = r.Status ∧
    (setRuntimeClassLoop env names r).state.Spec = r.Spec := by
  induction names generalizing r with
  | nil => exact ⟨h, rfl, rfl⟩
  | cons name rest ih =>
    simp only [setRuntimeClassLoop]
    split
    · exact ⟨h, rfl, rfl⟩
    · split
      · next hget hfind =>
        have hP := hcreate r { newRuntimeClass r name with OwnerReferences := [env.owner] } h hfind
        have hS := createRuntimeClass_fst_Status env
          { newRuntimeClass r name with OwnerReferences := [env.owner] } r
        split
        · next r2 e heq =>
          rw [heq] at hP hS
          exact ⟨hP, hS.1, hS.2.1⟩
        · next r2 heq =>
          rw [heq] at hP hS
          obtain ⟨h1, h2, h3⟩ := ih r2 hP
          exact ⟨h1, h2.trans hS.1, h3.trans hS.2.1⟩
      · exact ih r h

theorem setRuntimeClassLoop_ret (env : Env) (names : List String) (r : Reconciler) (o : Outcome)
    (h : setRuntimeClassLoop env names r = Flow.ret o) : o.err ≠ none := by
  induction names generalizing r with
  | nil => simp [setRuntimeClassLoop] at h
  | cons name rest ih =>
    simp only [setRuntimeClassLoop] at h
    split at h
    · simp only [Flow.ret.injEq] at h
      subst h
      simp
    · split at h
      · split at h
        · simp only [Flow.ret.injEq] at h
          subst h
          simp
        · exact ih _ h
      · exact ih _ h

theorem setRuntimeClass_induct (env : Env) (P : Reconciler → Prop) (hP : PassInvariant env P)
    (r : Reconciler) (h : P r) :
    P (setRuntimeClass env r).state ∧
    ((setRuntimeClass env r).err = none →
      (setRuntimeClass env r).state.Status = recordRuntimeClass r.Status) := by
  have hl := setRuntimeClassLoop_induct env P hP.createRuntimeClass runtimeClassNames r h
  unfold setRuntimeClass
  split
  · next o heq =>
    rw [heq] at hl
    exact ⟨hl.1, fun hn => absurd hn (setRuntimeClassLoop_ret env _ r o heq)⟩
  · next r1 heq =>
    rw [heq] at hl
    simp only [Flow.state] at hl
    obtain ⟨h1, h2, h3⟩ := hl
    have hn := hP.setName r1 h1
    have hu := hP.update _ hn
    have hs := statusUpdate_fst_Status env { r1 with Status := recordRuntimeClass r1.Status }
    simp only
    split
    · next r2 e heq2 =>
      rw [heq2] at hu hs
      exact ⟨hu, by simp⟩
    · next r2 heq2 =>
      rw [heq2] at hu hs
      refine ⟨hu, fun _ => ?_⟩
      rw [← h2]
      exact hs

theorem monitor_induct (env : Env) (P : Reconciler → Prop) (hP : PassInvariant env P)
    (r : Reconciler) (h : P r) (hT : 0 < r.Status.TotalNodesCount)
    (hC : r.Status.InstallationStatus.Completed.CompletedNodesCount ≠ r.Status.TotalNodesCount) :
    P (monitorKataConfigInstallation env r).state := by
  unfold monitorKataConfigInstallation
  split
  · next hguard =>
    obtain ⟨h1, h2⟩ := setRuntimeClass_induct env P hP r h
    simp only
    split
    · exact h1
    · next hnone =>
      have hS := h2 hnone
      have hf := hP.finalize _ h1 (by rw [hS]; exact hT) (by rw [hS]; exact hC)
        (by rw [hS]; exact hguard.2)
      have hu := hP.update _ hf
      split
      · next r2 e heq => rw [heq] at hu; exact hu
      · next r2 heq => rw [heq] at hu; exact hu
  · next hguard =>
    have hne : r.Status.InstallationStatus.InProgress.InProgressNodesCount ≠ r.Status.TotalNodesCount :=
      fun he => hguard ⟨hT, he⟩
    have hd : P r.defaultNodeSelector ∧ r.defaultNodeSelector.Status = r.Status := by
      unfold Reconciler.defaultNodeSelector
      split
      · exact ⟨hP.setSpec _ _ h, rfl⟩
      · exact ⟨h, rfl⟩
    simp only
    split
    · exact hd.1
    · next items _ =>
      have key := nodeLoop_induct env
        (fun x => P x ∧ 0 < x.Status.TotalNodesCount ∧
          x.Status.InstallationStatus.Completed.CompletedNodesCount ≠ x.Status.TotalNodesCount) True
        (fun x name hx hmem hcnt =>
          ⟨hP.append x name hx.1 hx.2.1 hx.2.2 (hcnt trivial) hmem, hx.2.1, hx.2.2⟩)
        (fun x hx => ⟨hP.update x hx.1, by rw [statusUpdate_fst_Status]; exact hx.2⟩)
        items r.defaultNodeSelector
        ⟨hd.1, by rw [hd.2]; exact hT, by rw [hd.2]; exact hC⟩
        (fun _ => by rw [hd.2]; exact hne)
      exact key.1

theorem pinTotalNodesCount_induct (env : Env) (P : Reconciler → Prop) (hP : PassInvariant env P)
    (r : Reconciler) (h : P r) : P (pinTotalNodesCount env r).state := by
  unfold pinTotalNodesCount
  split
  · next hz =>
    have hd : P r.defaultNodeSelector ∧ r.defaultNodeSelector.Status = r.Status := by
      unfold Reconciler.defaultNodeSelector
      split
      · exact ⟨hP.setSpec _ _ h, rfl⟩
      · exact ⟨h, rfl⟩
    simp only
    split
    · exact hd.1
    · next items _ =>
      have ht := hP.setTotal _ items.length hd.1 (by rw [hd.2]; exact hz)
      split
      · exact ht
      · split
        · exact ht
        · have hi : P (if ({ r.defaultNodeSelector with Status :=
                { r.defaultNodeSelector.Status with TotalNodesCount := items.length } } :
                  Reconciler).Status.ConfidentialContainersRuntimeImage = "" then
              { r.defaultNodeSelector with Status :=
                { r.defaultNodeSelector.Status with
                  TotalNodesCount := items.length
                  ConfidentialContainersRuntimeImage := r.defaultNodeSelector.Spec.Config.SourceImage } }
              else { r.defaultNodeSelector with Status :=
                { r.defaultNodeSelector.Status with TotalNodesCount := items.length } }) := by
            split
            · exact hP.setImage _ _ ht
            · exact ht
          have hu := hP.update _ hi
          split
          · next r2 e heq => rw [heq] at hu; exact hu
          · next r2 heq => rw [heq] at hu; exact hu
  · exact h

theorem installDaemonset_induct (env : Env) (P : Reconciler → Prop) (hP : PassInvariant env P)
    (r : Reconciler) (h : P r) : P (installDaemonset env r).state := by
  unfold installDaemonset
  split
  · next hguard =>
    simp only
    split
    · exact h
    · split
      · next hget hfind =>
        have hc := hP.createDaemonSet r
          { processDaemonset InstallOperation r with OwnerReferences := [env.owner] } h hfind
        have hs := createDaemonSet_fst_Status env
          { processDaemonset InstallOperation r with OwnerReferences := [env.owner] } r
        split
        · next r2 e heq => rw [heq] at hc; exact hc
        · next r2 heq =>
          rw [heq] at hc hs
          exact monitor_induct env P hP r2 hc (by rw [hs.1]; exact hguard.1)
            (by rw [hs.1]; exact hguard.2)
      · exact h
      · exact monitor_induct env P hP r h hguard.1 hguard.2
  · exact h

/-- A pass invariant that holds when processKataConfigInstallRequest is entered holds when
it returns. -/
theorem processKataConfigInstallRequest_induct (env : Env) (P : Reconciler → Prop)
    (hP : PassInvariant env P) (r : Reconciler) (h : P r) :
    P (processKataConfigInstallRequest env r).state := by
  have hp := pinTotalNodesCount_induct env P hP r h
  unfold processKataConfigInstallRequest
  split
  · next o heq => rw [heq] at hp; exact hp
  · next r2 heq =>
    rw [heq] at hp
    exact installDaemonset_induct env P hP r2 hp

/-! ## The invariant of the persisted status -/

theorem StatusInvariant_completed_nil (s : ConfidentialContainersRuntimeStatus)
    (h : StatusInvariant s)
    (hC : s.InstallationStatus.Completed.CompletedNodesCount ≠ s.TotalNodesCount) :
    s.InstallationStatus.Completed.CompletedNodesList = [] := by
  obtain ⟨_, _, _, h4⟩ := h
  rcases h4 with h4 | h4
  · exact h4
  · exact absurd h4.2 hC

theorem statusInvariant_pass (env : Env) :
    PassInvariant env (fun r => StatusInvariant r.Status ∧ StatusInvariant r.store.Status) where
  setSpec := fun r spec h => h
  setTotal := by
    intro r n h hz
    refine ⟨?_, h.2⟩
    obtain ⟨h1, h2, h3, h4⟩ := h.1
    refine ⟨h1, h2, ?_, ?_⟩
    · simp only
      omega
    · left
      rcases h4 with h4 | h4
      · exact h4
      · have hlen : r.Status.InstallationStatus.Completed.CompletedNodesList.length = 0 := by
          omega
        exact List.length_eq_zero.mp hlen
  setImage := fun r image h => h
  setName := fun r h => h
  finalize := by
    intro r h hT hC hcnt
    refine ⟨?_, h.2⟩
    obtain ⟨h1, h2, h3, h4⟩ := h.1
    refine ⟨by simp [Operator.finalize], by simp [Operator.finalize], ?_, ?_⟩
    · simp only [Operator.finalize]; omega
    · right
      simp only [Operator.finalize, true_and]
      omega
  append := by
    intro r name h hT hC hcnt hmem
    refine ⟨?_, h.2⟩
    have hnil := StatusInvariant_completed_nil _ h.1 hC
    obtain ⟨h1, h2, h3, h4⟩ := h.1
    refine ⟨?_, h2, ?_, Or.inl hnil⟩
    · simp only [appendInstalled, List.length_append, List.length_singleton]
      push_cast
      omega
    · simp only [appendInstalled]
      omega
  update := by
    intro r h
    rw [statusUpdate_fst_Status]
    refine ⟨h.1, ?_⟩
    rcases statusUpdate_store_Status env r with hs | hs <;> rw [hs]
    · exact h.2
    · exact h.1
  createDaemonSet := by
    intro r ds h _
    obtain ⟨h1, _, h3, _⟩ := createDaemonSet_fst_Status env ds r
    rw [h1, h3]; exact h
  createRuntimeClass := by
    intro r rc h _
    obtain ⟨h1, _, h3, _⟩ := createRuntimeClass_fst_Status env rc r
    rw [h1, h3]; exact h

theorem Reconcile_statusInvariant (env : Env) (st : Store) (h : StatusInvariant st.Status) :
    StatusInvariant (Reconcile env st).state.store.Status := by
  unfold Reconcile
  split
  · exact h
  · exact h
  · next spec del _ =>
    simp only
    split
    · exact h
    · exact (processKataConfigInstallRequest_induct env _ (statusInvariant_pass env)
        { Spec := spec, Status := st.Status, store := st } ⟨h, h⟩).2

theorem ReachableFrom_statusInvariant (s1 s2 : ConfidentialContainersRuntimeStatus)
    (h1 : StatusInvariant s1) (h : ReachableFrom s1 s2) : StatusInvariant s2 := by
  induction h with
  | refl => exact h1
  | pass env dss rcs _ ih => exact Reconcile_statusInvariant env _ ih

theorem Reachable_statusInvariant (s : ConfidentialContainersRuntimeStatus) (h : Reachable s) :
    StatusInvariant s :=
  ReachableFrom_statusInvariant _ s (by simp [StatusInvariant]) h

/-- The pass leaves a status in the steady state as it is. -/
theorem Reconcile_steady (env : Env) (st : Store) (hT : 0 < st.Status.TotalNodesCount)
    (hC : st.Status.InstallationStatus.Completed.CompletedNodesCount = st.Status.TotalNodesCount) :
    (Reconcile env st).state.store = st := by
  unfold Reconcile
  split
  · rfl
  · rfl
  · simp only
    split
    · rfl
    · have hne : ¬ st.Status.TotalNodesCount = 0 := by omega
      simp [processKataConfigInstallRequest, pinTotalNodesCount, hne, installDaemonset, hC]

/-! ## Lemmas for the claims -/

theorem Reachable_statusTwoOfThree : Reachable statusTwoOfThree :=
  ReachableFrom.pass (quietEnv twoOfThree) [] [] ReachableFrom.refl

theorem Reachable_statusCompleted : Reachable statusCompleted :=
  ReachableFrom.pass (quietEnv threeOfThree) [] []
    (ReachableFrom.pass (quietEnv threeOfThree) [] [] ReachableFrom.refl)

theorem ReachableFrom_steady (s s2 : ConfidentialContainersRuntimeStatus)
    (hT : 0 < s.TotalNodesCount)
    (hC : s.InstallationStatus.Completed.CompletedNodesCount = s.TotalNodesCount)
    (h : ReachableFrom s s2) : s2 = s := by
  induction h with
  | refl => rfl
  | pass env dss rcs _ ih =>
    subst ih
    rw [Reconcile_steady env _ hT hC]

theorem FoldInvariant_append (old : List String) (s : ConfidentialContainersRuntimeStatus)
    (name : String) (h : FoldInvariant old s)
    (hmem : name ∉ s.InstallationStatus.InProgress.BinariesInstalledNodesList) :
    FoldInvariant old (appendInstalled name s) := by
  obtain ⟨h1, h2, h3⟩ := h
  refine ⟨?_, ?_, ?_⟩
  · simp only [appendInstalled]
    rw [List.nodup_append]
    refine ⟨h1, List.nodup_singleton name, ?_⟩
    intro a ha hb
    rw [List.mem_singleton] at hb
    subst hb
    exact hmem ha
  · simp only [appendInstalled]
    exact h2.trans (List.prefix_append _ _)
  · simp only [appendInstalled, List.length_append, List.length_singleton]
    push_cast
    omega

theorem nodeLoop_TotalNodesCount (env : Env) (nodes : List Node) (r : Reconciler) :
    (nodeLoop env nodes r).state.Status.TotalNodesCount = r.Status.TotalNodesCount :=
  nodeLoop_induct env (fun x => x.Status.TotalNodesCount = r.Status.TotalNodesCount) False
    (fun _ _ hx _ _ => hx)
    (fun x hx => by beta_reduce at hx ⊢; rw [statusUpdate_fst_Status]; exact hx)
    nodes r rfl (fun hf => hf.elim)

theorem defaultNodeSelector_Status (r : Reconciler) :
    r.defaultNodeSelector.Status = r.Status ∧ r.defaultNodeSelector.store = r.store ∧
    r.defaultNodeSelector.updates = r.updates ∧ r.defaultNodeSelector.creates = r.creates := by
  unfold Reconciler.defaultNodeSelector
  split <;> exact ⟨rfl, rfl, rfl, rfl⟩

theorem monitor_fold (env : Env) (r : Reconciler) (items : List Node)
    (hlt : r.Status.InstallationStatus.InProgress.InProgressNodesCount < r.Status.TotalNodesCount)
    (hlist : env.listForMonitor r.defaultNodeSelector.matchLabels = Except.ok items) :
    monitorKataConfigInstallation env r = nodeLoop env items r.defaultNodeSelector := by
  have hne : ¬ (0 < r.Status.TotalNodesCount ∧
      r.Status.InstallationStatus.InProgress.InProgressNodesCount = r.Status.TotalNodesCount) := by
    omega
  unfold monitorKataConfigInstallation
  rw [if_neg hne]
  simp only [hlist]

theorem setRuntimeClassLoop_ok (env : Env)
    (hown : ∀ k n, env.setControllerReference k n = none)
    (hcreate : ∀ k n, env.create k n = none) (names : List String) (r : Reconciler) :
    ∃ r2, setRuntimeClassLoop env names r = Flow.next r2 ∧ r2.Status = r.Status ∧
      r2.store.Status = r.store.Status ∧ r2.updates = r.updates := by
  induction names generalizing r with
  | nil => exact ⟨r, rfl, rfl, rfl, rfl⟩
  | cons name rest ih =>
    simp only [setRuntimeClassLoop, hown]
    split
    · next hget hfind =>
      have hc : r.createRuntimeClass env { newRuntimeClass r name with OwnerReferences := [env.owner] } =
          (({ r with
              creates := r.creates ++ [{ kind := ObjKind.runtimeClass, Namespace := "", Name := name, held := false }]
              store := { r.store with RuntimeClasses := r.store.RuntimeClasses ++
                [{ newRuntimeClass r name with OwnerReferences := [env.owner] }] } } : Reconciler), none) := by
        simp only [newRuntimeClass] at hfind
        simp [Reconciler.createRuntimeClass, hcreate, newRuntimeClass, hfind]
      rw [hc]
      simp only
      obtain ⟨r2, h1, h2, h3, h4⟩ := ih
        ({ r with
              creates := r.creates ++ [{ kind := ObjKind.runtimeClass, Namespace := "", Name := name, held := false }]
              store := { r.store with RuntimeClasses := r.store.RuntimeClasses ++
                [{ newRuntimeClass r name with OwnerReferences := [env.owner] }] } } : Reconciler)
      exact ⟨r2, h1, h2, h3, h4⟩
    · exact ih r

/-- With every call succeeding, a pass that finds the in-progress count at the total
records the runtime classes, finalizes and persists. -/
theorem monitor_finalize (env : Env) (r : Reconciler)
    (hown : ∀ k n, env.setControllerReference k n = none)
    (hcreate : ∀ k n, env.create k n = none)
    (hupd : ∀ k, env.statusUpdate k = none)
    (hT : 0 < r.Status.TotalNodesCount)
    (hI : r.Status.InstallationStatus.InProgress.InProgressNodesCount = r.Status.TotalNodesCount) :
    (monitorKataConfigInstallation env r).state.Status = finalize (recordRuntimeClass r.Status) ∧
    (monitorKataConfigInstallation env r).state.store.Status = finalize (recordRuntimeClass r.Status) ∧
    (monitorKataConfigInstallation env r).result = {} ∧
    (monitorKataConfigInstallation env r).err = none := by
  obtain ⟨r2, h1, h2, h3, h4⟩ := setRuntimeClassLoop_ok env hown hcreate runtimeClassNames r
  have hs : setRuntimeClass env r =
      { state := { r2 with Status := recordRuntimeClass r2.Status,
                           store := { r2.store with Status := recordRuntimeClass r2.Status },
                           updates := r2.updates + 1 } } := by
    simp [setRuntimeClass, h1, Reconciler.statusUpdate, hupd]
  unfold monitorKataConfigInstallation
  rw [if_pos ⟨hT, hI⟩, hs]
  simp [Reconciler.statusUpdate, hupd, h2]

theorem find?_of_isPrefix {α : Type} (p : α → Bool) (l1 l2 : List α) (a : α) (h : l1 <+: l2)
    (hf : l1.find? p = some a) : l2.find? p = some a := by
  obtain ⟨t, rfl⟩ := h
  rw [List.find?_append, hf]
  rfl

theorem find?_none_of_isPrefix {α : Type} (p : α → Bool) (l1 l2 : List α) (h : l1 <+: l2)
    (hf : l2.find? p = none) : l1.find? p = none := by
  cases h1 : l1.find? p with
  | none => rfl
  | some a => rw [find?_of_isPrefix p l1 l2 a h h1] at hf; exact absurd hf (by simp)

theorem countP_eq_zero_of_find? {α : Type} (p : α → Bool) (l : List α) (h : l.find? p = none) :
    l.countP p = 0 := by
  rw [List.countP_eq_zero]
  intro a ha
  exact (List.find?_eq_none.mp h) a ha

theorem objectsInvariant_pass (env : Env) (st : Store) :
    PassInvariant env (ObjectsInvariant st) where
  setSpec := fun r spec h => h
  setTotal := fun r n h _ => h
  setImage := fun r image h => h
  setName := fun r h => h
  finalize := fun r h _ _ _ => h
  append := fun r name h _ _ _ _ => h
  update := by
    intro r h
    unfold ObjectsInvariant Store.countDaemonSets Store.countRuntimeClasses at *
    rw [statusUpdate_fst_creates, statusUpdate_fst_DaemonSets, statusUpdate_fst_RuntimeClasses]
    exact h
  createDaemonSet := by
    intro r ds h hfind
    obtain ⟨h1, h2, h3, h4, h5⟩ := h
    have hst : st.findDaemonSet ds.Name ds.Namespace = none :=
      find?_none_of_isPrefix _ _ _ h2 hfind
    have hcalls : ∀ c ∈ r.creates ++ [CreateCall.mk ObjKind.daemonSet ds.Namespace ds.Name
        (r.store.findDaemonSet ds.Name ds.Namespace).isSome],
        c.held = false ∧ st.holds c = false := by
      intro c hc
      rw [List.mem_append, List.mem_singleton] at hc
      rcases hc with hc | hc
      · exact h1 c hc
      · subst hc
        simp [Store.holds, hst, hfind]
    rw [hfind] at hcalls
    unfold Reconciler.createDaemonSet
    simp only [hfind]
    split
    · exact ⟨hcalls, h2, h3, h4, h5⟩
    · refine ⟨hcalls, h2.trans (List.prefix_append _ _), h3, ?_, h5⟩
      intro name ns
      simp only [Store.countDaemonSets, List.countP_append]
      by_cases hk : ds.Name = name ∧ ds.Namespace = ns
      · obtain ⟨rfl, rfl⟩ := hk
        simp only [Store.findDaemonSet] at hfind
        rw [countP_eq_zero_of_find? _ _ hfind]
        simp
      · have hle := h4 name ns
        simp only [Store.countDaemonSets] at hle
        have hz : List.countP (fun d => decide (d.Name = name ∧ d.Namespace = ns)) [ds] = 0 := by
          rw [List.countP_eq_zero]
          intro a ha
          rw [List.mem_singleton] at ha
          subst ha
          simpa using hk
        rw [hz]
        omega
  createRuntimeClass := by
    intro r rc h hfind
    obtain ⟨h1, h2, h3, h4, h5⟩ := h
    have hst : st.findRuntimeClass rc.Name = none :=
      find?_none_of_isPrefix _ _ _ h3 hfind
    have hcalls : ∀ c ∈ r.creates ++ [CreateCall.mk ObjKind.runtimeClass "" rc.Name
        (r.store.findRuntimeClass rc.Name).isSome],
        c.held = false ∧ st.holds c = false := by
      intro c hc
      rw [List.mem_append, List.mem_singleton] at hc
      rcases hc with hc | hc
      · exact h1 c hc
      · subst hc
        simp [Store.holds, hst, hfind]
    rw [hfind] at hcalls
    unfold Reconciler.createRuntimeClass
    simp only [hfind]
    split
    · exact ⟨hcalls, h2, h3, h4, h5⟩
    · refine ⟨hcalls, h2, h3.trans (List.prefix_append _ _), h4, ?_⟩
      intro name
      simp only [Store.countRuntimeClasses, List.countP_append]
      by_cases hk : rc.Name = name
      · subst hk
        simp only [Store.findRuntimeClass] at hfind
        rw [countP_eq_zero_of_find? _ _ hfind]
        simp
      · have hle := h5 name
        simp only [Store.countRuntimeClasses] at hle
        have hz : List.countP (fun c => decide (c.Name = name)) [rc] = 0 := by
          rw [List.countP_eq_zero]
          intro a ha
          rw [List.mem_singleton] at ha
          subst ha
          simpa using hk
        rw [hz]
        omega

theorem Reconcile_objectsInvariant (env : Env) (st : Store) :
    ObjectsInvariant st (Reconcile env st).state := by
  have h0 : ∀ (spec : ConfidentialContainersRuntimeSpec) (s : ConfidentialContainersRuntimeStatus),
      ObjectsInvariant st { Spec := spec, Status := s, store := st } := by
    intro spec s
    refine ⟨by simp, List.prefix_refl _, List.prefix_refl _, ?_, ?_⟩
    · intro name ns; exact le_max_left _ _
    · intro name; exact le_max_left _ _
  unfold Reconcile
  split
  · exact h0 _ _
  · exact h0 _ _
  · next spec del _ =>
    simp only
    split
    · exact h0 _ _
    · exact processKataConfigInstallRequest_induct env _ (objectsInvariant_pass env st) _ (h0 _ _)

/-! ## The claims -/

/-- C1: in every status reachable from the zero-valued status by Reconcile passes, in any
environments, the in-progress count plus the completed count is at most the total node
count. -/
theorem C1_counts_bounded_by_total (s : ConfidentialContainersRuntimeStatus) (h : Reachable s) :
    s.InstallationStatus.InProgress.InProgressNodesCount +
      s.InstallationStatus.Completed.CompletedNodesCount ≤ s.TotalNodesCount := by
  obtain ⟨h1, h2, h3, h4⟩ := Reachable_statusInvariant s h
  rcases h4 with h4 | ⟨h4, h5⟩
  · rw [h4] at h2
    simp only [List.length_nil, Nat.cast_zero] at h2
    omega
  · rw [h4] at h1
    simp only [List.length_nil, Nat.cast_zero] at h1
    omega

/-- Witness of C1: the status persisted by the first pass when two of three nodes are
labelled is reachable, with in-progress count 2, completed count 0 and total 3. -/
theorem C1_counts_bounded_by_total_witness :
    Reachable statusTwoOfThree ∧
    statusTwoOfThree.InstallationStatus.InProgress.InProgressNodesCount = 2 ∧
    statusTwoOfThree.InstallationStatus.InProgress.InProgressNodesCount +
      statusTwoOfThree.InstallationStatus.Completed.CompletedNodesCount ≤
        statusTwoOfThree.TotalNodesCount :=
  ⟨Reachable_statusTwoOfThree, by decide,
    C1_counts_bounded_by_total statusTwoOfThree Reachable_statusTwoOfThree⟩

/-- C2, as the specification states it, fails.  The reconciler `noneOfThree` enters
monitoring with three target nodes and none reported, `List` returns three nodes of which
two carry the success label: the total is positive, the in-progress count is below it
before the fold (0) and after it (2), and the result has Requeue unset.  The whole pass
over the same persisted status returns the same result without error. -/
theorem C2_requeue_when_incomplete_counterexample :
    (0 < noneOfThree.Status.TotalNodesCount ∧
      noneOfThree.Status.InstallationStatus.InProgress.InProgressNodesCount <
        noneOfThree.Status.TotalNodesCount ∧
      (quietEnv twoOfThree).listForMonitor noneOfThree.defaultNodeSelector.matchLabels =
        Except.ok twoOfThree ∧
      (monitorKataConfigInstallation (quietEnv twoOfThree) noneOfThree).state.Status.InstallationStatus.InProgress.InProgressNodesCount = 2 ∧
      (monitorKataConfigInstallation (quietEnv twoOfThree) noneOfThree).state.Status.InstallationStatus.InProgress.InProgressNodesCount <
        noneOfThree.Status.TotalNodesCount) ∧
    ¬ ((monitorKataConfigInstallation (quietEnv twoOfThree) noneOfThree).result.Requeue = true ∧
        (monitorKataConfigInstallation (quietEnv twoOfThree) noneOfThree).err = none) ∧
    (Reconcile (quietEnv twoOfThree) noneOfThree.store).result =
      { Requeue := false, RequeueAfter := 0 } ∧
    (Reconcile (quietEnv twoOfThree) noneOfThree.store).err = none :=
  ⟨⟨by decide, by decide, rfl, by decide, by decide⟩, by decide, by decide, by decide⟩

/-- C2, amended: a pass that enters monitoring with the in-progress count below a positive
total, and whose fold over the listed nodes leaves the count below the total, returns a
result without Requeue and without a delay; it returns no error when every status write of
the pass succeeds. -/
theorem C2_no_requeue_when_incomplete (env : Env) (r : Reconciler) (items : List Node)
    (hT : 0 < r.Status.TotalNodesCount)
    (hlt : r.Status.InstallationStatus.InProgress.InProgressNodesCount < r.Status.TotalNodesCount)
    (hlist : env.listForMonitor r.defaultNodeSelector.matchLabels = Except.ok items)
    (hleft : (monitorKataConfigInstallation env r).state.Status.InstallationStatus.InProgress.InProgressNodesCount <
      r.Status.TotalNodesCount) :
    (monitorKataConfigInstallation env r).result = { Requeue := false, RequeueAfter := 0 } ∧
    ((∀ k, env.statusUpdate k = none) → (monitorKataConfigInstallation env r).err = none) := by
  have _ := hT
  rw [monitor_fold env r items hlt hlist] at hleft ⊢
  obtain ⟨h1, h2, _, h4⟩ := nodeLoop_result env items r.defaultNodeSelector
  have hTot : (nodeLoop env items r.defaultNodeSelector).state.Status.TotalNodesCount =
      r.Status.TotalNodesCount := by
    rw [nodeLoop_TotalNodesCount, (defaultNodeSelector_Status r).1]
  refine ⟨?_, h4⟩
  have hq : (nodeLoop env items r.defaultNodeSelector).result.Requeue = false := by
    cases hreq : (nodeLoop env items r.defaultNodeSelector).result.Requeue with
    | false => rfl
    | true =>
      have := (h2 hreq).2
      omega
  cases hres : (nodeLoop env items r.defaultNodeSelector).result with
  | mk q a =>
    rw [hres] at hq h1
    simp only at hq h1
    rw [hq, h1]

/-- Witness of the amended C2: three target nodes, two of which carry the success label. -/
theorem C2_no_requeue_when_incomplete_witness :
    (monitorKataConfigInstallation (quietEnv twoOfThree) noneOfThree).state.Status.InstallationStatus.InProgress.InProgressNodesCount = 2 ∧
    ((monitorKataConfigInstallation (quietEnv twoOfThree) noneOfThree).result =
        { Requeue := false, RequeueAfter := 0 } ∧
      ((∀ k, (quietEnv twoOfThree).statusUpdate k = none) →
        (monitorKataConfigInstallation (quietEnv twoOfThree) noneOfThree).err = none)) :=
  ⟨by decide,
    C2_no_requeue_when_incomplete (quietEnv twoOfThree) noneOfThree twoOfThree
      (by decide) (by decide) rfl (by decide)⟩

/-- C3 fails on the code: with the in-progress count at the total, no RuntimeClass in the
store and every read of a RuntimeClass failing with an error other than NotFound, the pass
returns no error and persists the five names in `Status.RuntimeClass`, although it has
issued no create and the store holds none of the five objects. -/
theorem C3_names_recorded_without_objects :
    (Reconcile failingReadEnv storeAllReported).err = none ∧
    (Reconcile failingReadEnv storeAllReported).state.store.Status.RuntimeClass =
      "kata-qemu-virtiofs,kata-qemu,kata-clh,kata-fc,kata" ∧
    (∀ c ∈ (Reconcile failingReadEnv storeAllReported).state.creates, c.kind ≠ ObjKind.runtimeClass) ∧
    (∀ name ∈ runtimeClassNames,
      (Reconcile failingReadEnv storeAllReported).state.store.findRuntimeClass name = none) := by
  decide

/-- C4 fails on the code: the DaemonSets built for the uninstall and the upgrade operation
are named after the operation, but their container runs the script with the argument
install, not with the name of the operation; the pre-stop hook runs it with the argument
cleanup. -/
theorem C4_uninstall_runs_install :
    (processDaemonset UninstallOperation {}).Name = "kata-operator-daemon-uninstall" ∧
    (processDaemonset UninstallOperation {}).Containers.map Container.Command =
      [["bash", "-c", "/opt/kata-artifacts/scripts/kata-deploy.sh install"]] ∧
    (processDaemonset UninstallOperation {}).Containers.map Container.Command ≠
      [["bash", "-c", "/opt/kata-artifacts/scripts/kata-deploy.sh " ++ UninstallOperation]] ∧
    (processDaemonset UpgradeOperation {}).Containers.map Container.Command =
      [["bash", "-c", "/opt/kata-artifacts/scripts/kata-deploy.sh install"]] ∧
    (processDaemonset UpgradeOperation {}).Containers.map Container.Command ≠
      [["bash", "-c", "/opt/kata-artifacts/scripts/kata-deploy.sh " ++ UpgradeOperation]] ∧
    (processDaemonset UninstallOperation {}).Containers.map Container.PreStop =
      [["bash", "-c", "/opt/kata-artifacts/scripts/kata-deploy.sh cleanup"]] := by
  decide

/-- C5: in every status reachable from the zero-valued status the completed list and the
in-progress list share no node, and a node of the completed list is in the in-progress
list of no status that later passes reach. -/
theorem C5_completed_disjoint_from_inProgress (s : ConfidentialContainersRuntimeStatus)
    (h : Reachable s) :
    List.Disjoint s.InstallationStatus.Completed.CompletedNodesList
      s.InstallationStatus.InProgress.BinariesInstalledNodesList ∧
    ∀ s2 : ConfidentialContainersRuntimeStatus, ReachableFrom s s2 →
      ∀ name ∈ s.InstallationStatus.Completed.CompletedNodesList,
        name ∉ s2.InstallationStatus.InProgress.BinariesInstalledNodesList := by
  obtain ⟨h1, h2, h3, h4⟩ := Reachable_statusInvariant s h
  rcases h4 with h4 | ⟨h4, h5⟩
  · rw [h4]
    exact ⟨List.disjoint_nil_left _, fun _ _ name hn => absurd hn (List.not_mem_nil name)⟩
  · rw [h4]
    refine ⟨List.disjoint_nil_right _, ?_⟩
    intro s2 hs2 name hn
    have hpos : 0 < s.TotalNodesCount := by
      have hl := List.length_pos_of_mem hn
      omega
    rw [ReachableFrom_steady s s2 hpos h5 hs2, h4]
    exact List.not_mem_nil name

/-- Witness of C5: the status persisted after the installation completed on three nodes. -/
theorem C5_completed_disjoint_from_inProgress_witness :
    Reachable statusCompleted ∧
    statusCompleted.InstallationStatus.Completed.CompletedNodesList = ["node1", "node2", "node3"] ∧
    (List.Disjoint statusCompleted.InstallationStatus.Completed.CompletedNodesList
      statusCompleted.InstallationStatus.InProgress.BinariesInstalledNodesList ∧
    ∀ s2 : ConfidentialContainersRuntimeStatus, ReachableFrom statusCompleted s2 →
      ∀ name ∈ statusCompleted.InstallationStatus.Completed.CompletedNodesList,
        name ∉ s2.InstallationStatus.InProgress.BinariesInstalledNodesList) :=
  ⟨Reachable_statusCompleted, by decide,
    C5_completed_disjoint_from_inProgress statusCompleted Reachable_statusCompleted⟩

/-- C6: a pass entered with a positive total, a completed count different from the total
and the in-progress count equal to the total, in which every call succeeds, persists a
status whose completed list is the prior in-progress list, whose completed count is the
length of that list and whose in-progress list is empty with count 0; it returns no error
and requests no requeue. -/
theorem C6_finalize_moves_inProgress_to_completed (env : Env) (st : Store)
    (spec : ConfidentialContainersRuntimeSpec)
    (hreq : env.request = GetRequest.found spec false)
    (hT : 0 < st.Status.TotalNodesCount)
    (hC : st.Status.InstallationStatus.Completed.CompletedNodesCount ≠ st.Status.TotalNodesCount)
    (hI : st.Status.InstallationStatus.InProgress.InProgressNodesCount = st.Status.TotalNodesCount)
    (hown : ∀ k n, env.setControllerReference k n = none)
    (hget : env.getDaemonSet = none)
    (hcreate : ∀ k n, env.create k n = none)
    (hupd : ∀ k, env.statusUpdate k = none) :
    (Reconcile env st).state.store.Status.InstallationStatus.Completed.CompletedNodesList =
      st.Status.InstallationStatus.InProgress.BinariesInstalledNodesList ∧
    (Reconcile env st).state.store.Status.InstallationStatus.Completed.CompletedNodesCount =
      st.Status.InstallationStatus.InProgress.BinariesInstalledNodesList.length ∧
    (Reconcile env st).state.store.Status.InstallationStatus.InProgress.BinariesInstalledNodesList = [] ∧
    (Reconcile env st).state.store.Status.InstallationStatus.InProgress.InProgressNodesCount = 0 ∧
    (Reconcile env st).state.store.Status = (Reconcile env st).state.Status ∧
    (Reconcile env st).result = { Requeue := false, RequeueAfter := 0 } ∧
    (Reconcile env st).err = none := by
  have hne : ¬ st.Status.TotalNodesCount = 0 := by omega
  have key : ∃ r : Reconciler, r.Status = st.Status ∧
      Reconcile env st = monitorKataConfigInstallation env r := by
    unfold Reconcile
    rw [hreq]
    simp only [Bool.false_eq_true, if_false, processKataConfigInstallRequest, pinTotalNodesCount,
      hne, installDaemonset, hown, hget]
    rw [if_pos ⟨hT, hC⟩]
    split
    · next hfind =>
      simp only [Reconciler.createDaemonSet, hcreate, hfind]
      exact ⟨_, rfl, rfl⟩
    · next e heq => exact absurd heq (by simp)
    · exact ⟨_, rfl, rfl⟩
  obtain ⟨r, hr, hrec⟩ := key
  rw [hrec]
  obtain ⟨h1, h2, h3, h4⟩ := monitor_finalize env r hown hcreate hupd (by rw [hr]; exact hT)
    (by rw [hr]; exact hI)
  rw [h1, h2, h3, h4, hr]
  simp [finalize, recordRuntimeClass]

/-- Witness of C6: one target node that has reported, every call succeeding. -/
theorem C6_finalize_moves_inProgress_to_completed_witness :
    (Reconcile (quietEnv []) storeAllReported).state.store.Status.InstallationStatus.Completed.CompletedNodesList =
      storeAllReported.Status.InstallationStatus.InProgress.BinariesInstalledNodesList ∧
    (Reconcile (quietEnv []) storeAllReported).state.store.Status.InstallationStatus.Completed.CompletedNodesCount =
      storeAllReported.Status.InstallationStatus.InProgress.BinariesInstalledNodesList.length ∧
    (Reconcile (quietEnv []) storeAllReported).state.store.Status.InstallationStatus.InProgress.BinariesInstalledNodesList = [] ∧
    (Reconcile (quietEnv []) storeAllReported).state.store.Status.InstallationStatus.InProgress.InProgressNodesCount = 0 ∧
    (Reconcile (quietEnv []) storeAllReported).state.store.Status =
      (Reconcile (quietEnv []) storeAllReported).state.Status ∧
    (Reconcile (quietEnv []) storeAllReported).result = { Requeue := false, RequeueAfter := 0 } ∧
    (Reconcile (quietEnv []) storeAllReported).err = none :=
  C6_finalize_moves_inProgress_to_completed (quietEnv []) storeAllReported exampleSpec rfl
    (by decide) (by decide) (by decide) (fun _ _ => rfl) rfl (fun _ _ => rfl) (fun _ => rfl)

/-- C7: on a status whose in-progress list is duplicate-free with the count equal to its
length, the fold over any observed node list leaves the in-progress list duplicate-free,
with the old list as a prefix and with the count equal to the length of the list; the
persisted status is the one persisted before the fold or has the same three properties. -/
theorem C7_fold_keeps_list_duplicate_free (env : Env) (nodes : List Node) (r : Reconciler)
    (hnd : r.Status.InstallationStatus.InProgress.BinariesInstalledNodesList.Nodup)
    (hcnt : r.Status.InstallationStatus.InProgress.InProgressNodesCount =
      r.Status.InstallationStatus.InProgress.BinariesInstalledNodesList.length) :
    ((nodeLoop env nodes r).state.Status.InstallationStatus.InProgress.BinariesInstalledNodesList.Nodup ∧
      r.Status.InstallationStatus.InProgress.BinariesInstalledNodesList <+:
        (nodeLoop env nodes r).state.Status.InstallationStatus.InProgress.BinariesInstalledNodesList ∧
      (nodeLoop env nodes r).state.Status.InstallationStatus.InProgress.InProgressNodesCount =
        (nodeLoop env nodes r).state.Status.InstallationStatus.InProgress.BinariesInstalledNodesList.length) ∧
    ((nodeLoop env nodes r).state.store.Status = r.store.Status ∨
      ((nodeLoop env nodes r).state.store.Status.InstallationStatus.InProgress.BinariesInstalledNodesList.Nodup ∧
        r.Status.InstallationStatus.InProgress.BinariesInstalledNodesList <+:
          (nodeLoop env nodes r).state.store.Status.InstallationStatus.InProgress.BinariesInstalledNodesList ∧
        (nodeLoop env nodes r).state.store.Status.InstallationStatus.InProgress.InProgressNodesCount =
          (nodeLoop env nodes r).state.store.Status.InstallationStatus.InProgress.BinariesInstalledNodesList.length)) := by
  have key := nodeLoop_induct env
    (fun x => FoldInvariant r.Status.InstallationStatus.InProgress.BinariesInstalledNodesList x.Status ∧
      (x.store.Status = r.store.Status ∨
        FoldInvariant r.Status.InstallationStatus.InProgress.BinariesInstalledNodesList x.store.Status))
    False
    (fun x name hx hmem _ => ⟨FoldInvariant_append _ _ name hx.1 hmem, hx.2⟩)
    (fun x hx => by
      beta_reduce at hx ⊢
      rw [statusUpdate_fst_Status]
      refine ⟨hx.1, ?_⟩
      rcases statusUpdate_store_Status env x with hs | hs <;> rw [hs]
      · exact hx.2
      · exact Or.inr hx.1)
    nodes r ⟨⟨hnd, List.prefix_refl _, hcnt⟩, Or.inl rfl⟩ (fun hf => hf.elim)
  exact key

/-- Witness of C7: the list holds node1; node2 is listed twice and node1 once, all three
with the success label; node2 is appended once. -/
theorem C7_fold_keeps_list_duplicate_free_witness :
    (nodeLoop (quietEnv repeatedNodes) repeatedNodes oneOfThree).state.Status.InstallationStatus.InProgress.BinariesInstalledNodesList
      = ["node1", "node2"] ∧
    ((nodeLoop (quietEnv repeatedNodes) repeatedNodes oneOfThree).state.Status.InstallationStatus.InProgress.BinariesInstalledNodesList.Nodup ∧
      oneOfThree.Status.InstallationStatus.InProgress.BinariesInstalledNodesList <+:
        (nodeLoop (quietEnv repeatedNodes) repeatedNodes oneOfThree).state.Status.InstallationStatus.InProgress.BinariesInstalledNodesList ∧
      (nodeLoop (quietEnv repeatedNodes) repeatedNodes oneOfThree).state.Status.InstallationStatus.InProgress.InProgressNodesCount =
        (nodeLoop (quietEnv repeatedNodes) repeatedNodes oneOfThree).state.Status.InstallationStatus.InProgress.BinariesInstalledNodesList.length) :=
  ⟨by decide,
    (C7_fold_keeps_list_duplicate_free (quietEnv repeatedNodes) repeatedNodes oneOfThree
      (by decide) (by decide)).1⟩

/-- C8: for a request in the Uninitialized state whose effective node selector matches no
node, Reconcile returns the error on the missing worker nodes with a requeue delay of 15
seconds, writes nothing to the store (the persisted total stays 0) and issues no create,
whatever the source image. -/
theorem C8_empty_selector_rejected (env : Env) (st : Store)
    (spec : ConfidentialContainersRuntimeSpec)
    (hreq : env.request = GetRequest.found spec false)
    (hT : st.Status.TotalNodesCount = 0)
    (hlist : env.listForTotal
      ({ Spec := spec } : Reconciler).defaultNodeSelector.matchLabels = Except.ok []) :
    (Reconcile env st).err = some "no suitable worker nodes found for runtime installation. Please make sure to label the nodes with labels specified in ConfidentialContainersNodeSelector" ∧
    (Reconcile env st).result = { Requeue := true, RequeueAfter := 15 * Second } ∧
    (Reconcile env st).state.store = st ∧
    (Reconcile env st).state.store.Status.TotalNodesCount = 0 ∧
    (Reconcile env st).state.updates = 0 ∧
    (Reconcile env st).state.creates = [] := by
  have hl : env.listForTotal
      ({ Spec := spec, Status := st.Status, store := st } : Reconciler).defaultNodeSelector.matchLabels =
        Except.ok [] := by
    rw [← hlist]
    cases hs : spec.ConfidentialContainersNodeSelector <;>
      simp [Reconciler.defaultNodeSelector, Reconciler.matchLabels, hs]
  have hd := defaultNodeSelector_Status ({ Spec := spec, Status := st.Status, store := st } : Reconciler)
  unfold Reconcile
  rw [hreq]
  simp only [Bool.false_eq_true, if_false, processKataConfigInstallRequest, pinTotalNodesCount,
    hT, if_true, hl, List.length_nil, Nat.cast_zero]
  simp [hd, hT]

/-- Witness of C8: the zero-valued status and a selector that matches no node. -/
theorem C8_empty_selector_rejected_witness :
    (Reconcile (quietEnv []) {}).err = some "no suitable worker nodes found for runtime installation. Please make sure to label the nodes with labels specified in ConfidentialContainersNodeSelector" ∧
    (Reconcile (quietEnv []) {}).result = { Requeue := true, RequeueAfter := 15 * Second } ∧
    (Reconcile (quietEnv []) {}).state.store = {} ∧
    (Reconcile (quietEnv []) {}).state.store.Status.TotalNodesCount = 0 ∧
    (Reconcile (quietEnv []) {}).state.updates = 0 ∧
    (Reconcile (quietEnv []) {}).state.creates = [] :=
  C8_empty_selector_rejected (quietEnv []) {} exampleSpec rfl rfl rfl

/-- C9: for a request in the Uninitialized state whose source image is empty, and for
every node list, Reconcile returns an error (the one on the missing worker nodes when the
list is empty, the one on the missing source image otherwise) with a requeue delay of 15
seconds, writes nothing to the store and issues no create. -/
theorem C9_missing_image_rejected (env : Env) (st : Store)
    (spec : ConfidentialContainersRuntimeSpec) (items : List Node)
    (hreq : env.request = GetRequest.found spec false)
    (hT : st.Status.TotalNodesCount = 0)
    (himg : spec.Config.SourceImage = "")
    (hlist : env.listForTotal
      ({ Spec := spec } : Reconciler).defaultNodeSelector.matchLabels = Except.ok items) :
    (Reconcile env st).err =
      some (if items.length = 0 then "no suitable worker nodes found for runtime installation. Please make sure to label the nodes with labels specified in ConfidentialContainersNodeSelector"
        else "SourceImage must be specified to download the runtime binaries") ∧
    (Reconcile env st).result = { Requeue := true, RequeueAfter := 15 * Second } ∧
    (Reconcile env st).state.store = st ∧
    (Reconcile env st).state.updates = 0 ∧
    (Reconcile env st).state.creates = [] := by
  have hl : env.listForTotal
      ({ Spec := spec, Status := st.Status, store := st } : Reconciler).defaultNodeSelector.matchLabels =
        Except.ok items := by
    rw [← hlist]
    cases hs : spec.ConfidentialContainersNodeSelector <;>
      simp [Reconciler.defaultNodeSelector, Reconciler.matchLabels, hs]
  have hd := defaultNodeSelector_Status ({ Spec := spec, Status := st.Status, store := st } : Reconciler)
  have hsp : ({ Spec := spec, Status := st.Status, store := st } : Reconciler).defaultNodeSelector.Spec.Config.SourceImage = "" := by
    cases hs : spec.ConfidentialContainersNodeSelector <;>
      simp [Reconciler.defaultNodeSelector, hs, himg]
  unfold Reconcile
  rw [hreq]
  simp only [Bool.false_eq_true, if_false, processKataConfigInstallRequest, pinTotalNodesCount,
    hT, if_true, hl, hsp]
  by_cases hz : items.length = 0
  · simp [hz, hd]
  · simp [hz, hd]

/-- Witness of C9: the zero-valued status, three nodes and no source image. -/
theorem C9_missing_image_rejected_witness :
    (Reconcile (noImageEnv twoOfThree) {}).err =
      some (if twoOfThree.length = 0 then "no suitable worker nodes found for runtime installation. Please make sure to label the nodes with labels specified in ConfidentialContainersNodeSelector"
        else "SourceImage must be specified to download the runtime binaries") ∧
    (Reconcile (noImageEnv twoOfThree) {}).result = { Requeue := true, RequeueAfter := 15 * Second } ∧
    (Reconcile (noImageEnv twoOfThree) {}).state.store = {} ∧
    (Reconcile (noImageEnv twoOfThree) {}).state.updates = 0 ∧
    (Reconcile (noImageEnv twoOfThree) {}).state.creates = [] :=
  C9_missing_image_rejected (noImageEnv twoOfThree) {} {} twoOfThree rfl rfl rfl rfl

/-- C10: a pass issues a create only for an object that the store does not hold (at the
time of the call, and at the start of the pass); every DaemonSet and RuntimeClass that
exists before the pass is found unchanged after it; after two successive passes no name
is held by more objects than before the passes, or by one. -/
theorem C10_creates_only_absent_objects (env env2 : Env) (st : Store) :
    (∀ c ∈ (Reconcile env st).state.creates, c.held = false ∧ st.holds c = false) ∧
    (st.DaemonSets <+: (Reconcile env st).state.store.DaemonSets ∧
      st.RuntimeClasses <+: (Reconcile env st).state.store.RuntimeClasses) ∧
    (∀ name ns ds, st.findDaemonSet name ns = some ds →
      (Reconcile env st).state.store.findDaemonSet name ns = some ds) ∧
    (∀ name rc, st.findRuntimeClass name = some rc →
      (Reconcile env st).state.store.findRuntimeClass name = some rc) ∧
    (∀ name ns,
      (Reconcile env2 (Reconcile env st).state.store).state.store.countDaemonSets name ns ≤
        max (st.countDaemonSets name ns) 1) ∧
    (∀ name,
      (Reconcile env2 (Reconcile env st).state.store).state.store.countRuntimeClasses name ≤
        max (st.countRuntimeClasses name) 1) := by
  obtain ⟨h1, h2, h3, h4, h5⟩ := Reconcile_objectsInvariant env st
  obtain ⟨_, _, _, k4, k5⟩ := Reconcile_objectsInvariant env2 (Reconcile env st).state.store
  refine ⟨h1, ⟨h2, h3⟩, ?_, ?_, ?_, ?_⟩
  · intro name ns ds hf
    exact find?_of_isPrefix _ _ _ ds h2 hf
  · intro name rc hf
    exact find?_of_isPrefix _ _ _ rc h3 hf
  · intro name ns
    have a := k4 name ns
    have b := h4 name ns
    omega
  · intro name
    have a := k5 name
    have b := h5 name
    omega

end Operator
